import Mathlib

/-!
Verification development for the housing-pricer crawl core.

Shallow embedding conventions:
* Python `datetime.date` values are embedded as integers, namely their
  proleptic-Gregorian ordinal day number (the value of Python's
  `date.toordinal()`).  Subtraction of two dates in Python yields a
  `timedelta` whose `.days` field equals the difference of the ordinals,
  and `date - timedelta(days=x)` is ordinal subtraction, so all date
  arithmetic in the source translates to integer arithmetic.
  `strftime("%Y-%m-%d")` / `strptime` form a bijection between ordinals
  and the date strings the source passes around, so set membership and
  ordering of the produced date strings coincide with membership and
  ordering of the ordinals.
* `toOrdinal y m d` computes the ordinal of year/month/day, following the
  standard proleptic-Gregorian formula used by CPython's
  `datetime.date.toordinal`; it lets concrete dates from the spec
  (for example 2023-12-01) appear as explicit inputs.
-/

def isLeapYear (y : Nat) : Bool :=
  (y % 4 == 0 && y % 100 != 0) || (y % 400 == 0)

def daysBeforeMonth (m : Nat) : Nat :=
  [0, 31, 59, 90, 120, 151, 181, 212, 243, 273, 304, 334].getD (m - 1) 0

def toOrdinal (y m d : Nat) : Int :=
  Int.ofNat (365 * (y - 1) + (y - 1) / 4 - (y - 1) / 100 + (y - 1) / 400
    + daysBeforeMonth m + (if 2 < m && isLeapYear y then 1 else 0) + d)

/--
Embeds the nested helper `generate_date_range` of
`DataManager._get_dates_to_scrape`
(src/housing_pricer/scraping/sdk/data_manager.py, lines 93-95):
`n_days = (end_date - start_date).days + 1`, then it yields
`end_date - timedelta(days=x)` for `x in range(n_days)`.
A negative count gives the empty range, like Python's `range`.
-/
def generate_date_range_dm (end_date start_date : Int) : List Int :=
  (List.range (end_date - start_date + 1).toNat).map (fun x : Nat => end_date - (x : Int))

/--
Embeds the nested helper `generate_date_range` of
`ScrapedDatesManager.dates_to_scrape`
(src/housing_pricer/scraping/sdk/scraped_dates_manager.py, lines 67-69):
identical to the `DataManager` variant except that
`n_days = (end_date - start_date).days`, without the `+ 1`.
-/
def generate_date_range_sdm (end_date start_date : Int) : List Int :=
  (List.range (end_date - start_date).toNat).map (fun x : Nat => end_date - (x : Int))

/--
Embeds `DataManager._get_dates_to_scrape`
(src/housing_pricer/scraping/sdk/data_manager.py, lines 83-115).
`scraped_dates` is the in-memory set `self._scraped_dates` (as ordinals),
`today` is the `_today` argument (the source subtracts one day to obtain
`yesterday`), `back_to_date` the back-stop date.  With no scraped dates it
yields one range; otherwise the range from `yesterday` down to the latest
scraped date followed by the range from the earliest scraped date down to
the back-stop date, both endpoint-inclusive.
-/
def get_dates_to_scrape (scraped_dates : Finset Int) (back_to_date today : Int) : List Int :=
  if h : scraped_dates.Nonempty then
    generate_date_range_dm (today - 1) (scraped_dates.max' h)
      ++ generate_date_range_dm (scraped_dates.min' h) back_to_date
  else
    generate_date_range_dm (today - 1) back_to_date

/--
Embeds `ScrapedDatesManager.dates_to_scrape`
(src/housing_pricer/scraping/sdk/scraped_dates_manager.py, lines 60-92;
the copy in src/housing_pricer/scraping/scraped_dates_manager.py,
lines 69-101, has the same body).  With no scraped dates it yields the
range from `yesterday` down to `back_to_date - 1` exclusive; otherwise
the range down to the latest scraped date (exclusive) followed by the
range from the day before the earliest scraped date down to the day
before the back-stop date (exclusive).
-/
def dates_to_scrape (scraped_dates : Finset Int) (back_to_date today : Int) : List Int :=
  if h : scraped_dates.Nonempty then
    generate_date_range_sdm (today - 1) (scraped_dates.max' h)
      ++ generate_date_range_sdm (scraped_dates.min' h - 1) (back_to_date - 1)
  else
    generate_date_range_sdm (today - 1) (back_to_date - 1)

theorem mem_generate_date_range_dm {e s d : Int} :
    d ∈ generate_date_range_dm e s ↔ s ≤ d ∧ d ≤ e := by
  simp only [generate_date_range_dm, List.mem_map, List.mem_range]
  constructor
  · rintro ⟨x, hx, rfl⟩
    omega
  · rintro ⟨h1, h2⟩
    exact ⟨(e - d).toNat, by omega, by omega⟩

theorem mem_generate_date_range_sdm {e s d : Int} :
    d ∈ generate_date_range_sdm e s ↔ s < d ∧ d ≤ e := by
  simp only [generate_date_range_sdm, List.mem_map, List.mem_range]
  constructor
  · rintro ⟨x, hx, rfl⟩
    omega
  · rintro ⟨h1, h2⟩
    exact ⟨(e - d).toNat, by omega, by omega⟩

example : get_dates_to_scrape ∅ (toOrdinal 2023 12 1) (toOrdinal 2023 12 5)
    = [toOrdinal 2023 12 4, toOrdinal 2023 12 3, toOrdinal 2023 12 2, toOrdinal 2023 12 1] := by
  decide

example : dates_to_scrape {toOrdinal 2023 12 2} (toOrdinal 2023 12 1) (toOrdinal 2023 12 5)
    = [toOrdinal 2023 12 4, toOrdinal 2023 12 3, toOrdinal 2023 12 1] := by
  decide

example : get_dates_to_scrape {toOrdinal 2023 12 2} (toOrdinal 2023 12 1) (toOrdinal 2023 12 5)
    = [toOrdinal 2023 12 4, toOrdinal 2023 12 3, toOrdinal 2023 12 2,
        toOrdinal 2023 12 2, toOrdinal 2023 12 1] := by
  decide

theorem generate_date_range_dm_sorted (end_date start_date : Int) :
    (generate_date_range_dm end_date start_date).Sorted (fun a b => b < a) := by
  unfold generate_date_range_dm
  rw [List.Sorted, List.pairwise_map]
  refine List.Pairwise.imp ?_ (List.pairwise_lt_range _)
  intro a b h
  omega

theorem generate_date_range_sdm_sorted (end_date start_date : Int) :
    (generate_date_range_sdm end_date start_date).Sorted (fun a b => b < a) := by
  unfold generate_date_range_sdm
  rw [List.Sorted, List.pairwise_map]
  refine List.Pairwise.imp ?_ (List.pairwise_lt_range _)
  intro a b h
  omega

/--
C9 (amended): the dates yielded by the planner within each of its ranges
are in strictly date-descending order, not ascending: both
`generate_date_range` helpers (the one of `DataManager._get_dates_to_scrape`
and the one of `ScrapedDatesManager.dates_to_scrape`) emit
`end_date - x` for `x = 0, 1, 2, ...`, so each range of either planner runs
from its newest date backwards.
-/
theorem C9_ranges_descending (end_date start_date : Int) :
    (generate_date_range_dm end_date start_date).Sorted (fun a b => b < a) ∧
    (generate_date_range_sdm end_date start_date).Sorted (fun a b => b < a) :=
  ⟨generate_date_range_dm_sorted end_date start_date,
   generate_date_range_sdm_sorted end_date start_date⟩

/--
C9 counterexample: with an empty coverage set, back-stop date 2023-12-01
and today 2023-12-05, the planner's single range
`[2023-12-04, 2023-12-03, 2023-12-02, 2023-12-01]` is not in
date-ascending order, refuting the claim as stated.
-/
theorem C9_counterexample :
    ¬ (dates_to_scrape (∅ : Finset Int) (toOrdinal 2023 12 1)
        (toOrdinal 2023 12 5)).Sorted (fun a b => a ≤ b) := by
  decide

/--
C1 (amended): the specified planner behaviour holds for
`ScrapedDatesManager.dates_to_scrape`: it never re-yields a covered date;
with empty coverage it yields exactly the dates from the back-stop date
through yesterday; with non-empty coverage it yields exactly the two
disjoint ranges (latest covered, yesterday] and [back-stop, earliest
covered).  `DataManager._get_dates_to_scrape`, by contrast, yields the
frontier-inclusive closed ranges [latest covered, yesterday] and
[back-stop, earliest covered], so it does re-yield the latest and earliest
covered dates (see the counterexample).
-/
theorem C1_planner_ranges (back_to_date today : Int) (scraped : Finset Int) :
    (∀ d ∈ scraped, d ∉ dates_to_scrape scraped back_to_date today) ∧
    (scraped = ∅ →
      ∀ d : Int, d ∈ dates_to_scrape scraped back_to_date today ↔
        back_to_date ≤ d ∧ d ≤ today - 1) ∧
    (∀ h : scraped.Nonempty, ∀ d : Int,
      (d ∈ dates_to_scrape scraped back_to_date today ↔
        (scraped.max' h < d ∧ d ≤ today - 1) ∨
          (back_to_date ≤ d ∧ d < scraped.min' h)) ∧
      (d ∈ get_dates_to_scrape scraped back_to_date today ↔
        (scraped.max' h ≤ d ∧ d ≤ today - 1) ∨
          (back_to_date ≤ d ∧ d ≤ scraped.min' h))) := by
  refine ⟨?_, ?_, ?_⟩
  · intro d hd hmem
    have hne : scraped.Nonempty := ⟨d, hd⟩
    rw [dates_to_scrape, dif_pos hne, List.mem_append,
      mem_generate_date_range_sdm, mem_generate_date_range_sdm] at hmem
    have h1 := Finset.le_max' scraped d hd
    have h2 := Finset.min'_le scraped d hd
    omega
  · intro hempty d
    rw [dates_to_scrape, dif_neg (by rw [hempty]; exact Finset.not_nonempty_empty),
      mem_generate_date_range_sdm]
    omega
  · intro h d
    constructor
    · rw [dates_to_scrape, dif_pos h, List.mem_append,
        mem_generate_date_range_sdm, mem_generate_date_range_sdm]
      omega
    · rw [get_dates_to_scrape, dif_pos h, List.mem_append,
        mem_generate_date_range_dm, mem_generate_date_range_dm]

/--
C1 counterexample: with back-stop date 2023-12-01, today 2023-12-05 and
coverage set 2023-12-02, `DataManager._get_dates_to_scrape` yields the
already-covered date 2023-12-02, refuting the claim that the planner never
yields a date present in the coverage set.
-/
theorem C1_counterexample :
    toOrdinal 2023 12 2 ∈
      get_dates_to_scrape {toOrdinal 2023 12 2} (toOrdinal 2023 12 1)
        (toOrdinal 2023 12 5) := by
  decide

/--
Witness for C1 (amended) at the spec's concrete bounds: 2023-12-02 is not
re-yielded by `ScrapedDatesManager.dates_to_scrape`, and with empty
coverage the planner's yield is characterised over the concrete bounds.
-/
theorem C1_witness :
    toOrdinal 2023 12 2 ∉
      dates_to_scrape {toOrdinal 2023 12 2} (toOrdinal 2023 12 1)
        (toOrdinal 2023 12 5) ∧
    (toOrdinal 2023 12 3 ∈
        dates_to_scrape (∅ : Finset Int) (toOrdinal 2023 12 1)
          (toOrdinal 2023 12 5) ↔
      toOrdinal 2023 12 1 ≤ toOrdinal 2023 12 3 ∧
        toOrdinal 2023 12 3 ≤ toOrdinal 2023 12 5 - 1) :=
  ⟨(C1_planner_ranges (toOrdinal 2023 12 1) (toOrdinal 2023 12 5)
        {toOrdinal 2023 12 2}).1 (toOrdinal 2023 12 2) (by decide),
   (C1_planner_ranges (toOrdinal 2023 12 1) (toOrdinal 2023 12 5) ∅).2.1 rfl
      (toOrdinal 2023 12 3)⟩


/-!
Record store (`DataManager` of
src/housing_pricer/scraping/sdk/data_manager.py).

The persisted data file is a sequence of lines.  The Python json library
is an external collaborator: `json.dumps` turns an entry dict
`\x7b"id": ..., "date": ..., "data": ...\x7d` into one well-formed line and
`json.loads` inverts it, raising `JSONDecodeError` on a malformed line.
That contract is embedded by the `Line` type: a line is either the
serialization of an entry (`Line.record`) or malformed raw text
(`Line.malformed`); `json.loads` on a `Line.record` line recovers exactly
the entry it serializes.  Endpoint ids and dates are the strings the
source passes around; the payload dict is opaque to the store and kept as
an opaque string.
-/

structure Entry where
  id : String
  date : String
  data : String
deriving DecidableEq

inductive Line where
  | record (e : Entry)
  | malformed (raw : String)
deriving DecidableEq

/-- Python errors that the embedded store operations can raise. -/
inductive PyErr where
  | json_decode_error
deriving DecidableEq

/--
In-memory state of a `DataManager` inside an open session: the persisted
log (contents of `scraped_data.json`, one `Line` per file line, appends
flushed on close) together with the sets `self._scraped_endpoints` and
`self._scraped_dates`.
-/
structure Session where
  log : List Line
  scraped_endpoints : Finset String
  scraped_dates : Finset String

def emptySession : Session := { log := [], scraped_endpoints := ∅, scraped_dates := ∅ }

/--
Embeds `DataManager.load_data`
(src/housing_pricer/scraping/sdk/data_manager.py, lines 143-158): it
iterates the file's lines, yielding `json.loads(entry)` for each.  The
surrounding `try` catches only `EOFError`, which line iteration over a
text file never raises; a `json.JSONDecodeError` raised by `json.loads`
on a malformed line propagates and aborts the generator.  The result is
the list of entries yielded before any abort, paired with `true` when the
replay was aborted by a malformed line.
-/
def load_data : List Line → List Entry × Bool
  | [] => ([], false)
  | Line.record e :: rest =>
      let r := load_data rest
      (e :: r.1, r.2)
  | Line.malformed _ :: _ => ([], true)

/--
Embeds `DataManager.__enter__` together with
`DataManager._load_scraped_endpoints_and_dates`
(src/housing_pricer/scraping/sdk/data_manager.py, lines 52-81): opening a
session replays the whole persisted log through `load_data`, marking each
yielded entry's id and date.  If the replay raises (malformed line), the
exception propagates out of `__enter__` and no session is produced.
-/
def open_session (log : List Line) : Except PyErr Session :=
  let r := load_data log
  if r.2 then Except.error PyErr.json_decode_error
  else Except.ok
    { log := log
      scraped_endpoints := (r.1.map (fun en => en.id)).toFinset
      scraped_dates := (r.1.map (fun en => en.date)).toFinset }

/--
Embeds `DataManager.append_data_to_file`
(src/housing_pricer/scraping/sdk/data_manager.py, lines 125-141): inside
the deferred-interrupt block it serializes the entry dict, writes it as
one new line at the end of the file, and marks the endpoint scraped.
(The date set is not touched by an append; only replay marks dates.)
-/
def append_data_to_file (s : Session) (endpoint_id date : String) (data : String) : Session :=
  { s with
    log := s.log ++ [Line.record { id := endpoint_id, date := date, data := data }]
    scraped_endpoints := insert endpoint_id s.scraped_endpoints }

/--
Embeds `DataManager.is_endpoint_scraped`
(src/housing_pricer/scraping/sdk/data_manager.py, lines 183-196):
membership in `self._scraped_endpoints`.
-/
def is_endpoint_scraped (s : Session) (endpoint_id : String) : Bool :=
  decide (endpoint_id ∈ s.scraped_endpoints)

/--
Embeds `DataManager._mark_endpoint_scraped`
(src/housing_pricer/scraping/sdk/data_manager.py, lines 171-181).
-/
def mark_endpoint_scraped (s : Session) (endpoint_id : String) : Session :=
  { s with scraped_endpoints := insert endpoint_id s.scraped_endpoints }

/--
Embeds `DataManager._mark_date_scraped`
(src/housing_pricer/scraping/sdk/data_manager.py, lines 160-169).
-/
def mark_date_scraped (s : Session) (date : String) : Session :=
  { s with scraped_dates := insert date s.scraped_dates }

/-- The state-mutating operations available inside an open store session. -/
inductive SessOp where
  | appendData (endpoint_id date data : String)
  | markEndpoint (endpoint_id : String)
  | markDate (date : String)

def applySessOp (s : Session) : SessOp → Session
  | SessOp.appendData e d p => append_data_to_file s e d p
  | SessOp.markEndpoint e => mark_endpoint_scraped s e
  | SessOp.markDate d => mark_date_scraped s d

def applySessOps (s : Session) (ops : List SessOp) : Session :=
  ops.foldl applySessOp s

/-- The entries carried by the well-formed lines of a log, in order. -/
def recsOf : List Line → List Entry
  | [] => []
  | Line.record e :: rest => e :: recsOf rest
  | Line.malformed _ :: rest => recsOf rest

/-- Every line of the log is the serialization of some entry. -/
abbrev WfLog (log : List Line) : Prop :=
  ∀ l ∈ log, ∃ en, l = Line.record en

theorem load_data_wf {log : List Line} (h : WfLog log) :
    load_data log = (recsOf log, false) := by
  induction log with
  | nil => rfl
  | cons l rest ih =>
      obtain ⟨en, rfl⟩ := h l (List.mem_cons_self l rest)
      have hrest : WfLog rest := fun l' hl' => h l' (List.mem_cons_of_mem _ hl')
      simp [load_data, recsOf, ih hrest]

theorem wfLog_applySessOp {s : Session} (h : WfLog s.log) (op : SessOp) :
    WfLog (applySessOp s op).log := by
  cases op with
  | appendData e d p =>
      intro l hl
      rcases List.mem_append.mp hl with hl | hl
      · exact h l hl
      · exact ⟨_, List.mem_singleton.mp hl⟩
  | markEndpoint e => exact h
  | markDate d => exact h

theorem log_mono_applySessOp {s : Session} {l : Line} (h : l ∈ s.log) (op : SessOp) :
    l ∈ (applySessOp s op).log := by
  cases op with
  | appendData e d p => exact List.mem_append_left _ h
  | markEndpoint e => exact h
  | markDate d => exact h

theorem endpoints_mono_applySessOp {s : Session} {e : String}
    (h : e ∈ s.scraped_endpoints) (op : SessOp) :
    e ∈ (applySessOp s op).scraped_endpoints := by
  cases op with
  | appendData e' d p => exact Finset.mem_insert_of_mem h
  | markEndpoint e' => exact Finset.mem_insert_of_mem h
  | markDate d => exact h

theorem wfLog_applySessOps {s : Session} (h : WfLog s.log) (ops : List SessOp) :
    WfLog (applySessOps s ops).log := by
  induction ops generalizing s with
  | nil => exact h
  | cons op rest ih => exact ih (wfLog_applySessOp h op)

theorem log_mono_applySessOps {s : Session} {l : Line} (h : l ∈ s.log) (ops : List SessOp) :
    l ∈ (applySessOps s ops).log := by
  induction ops generalizing s with
  | nil => exact h
  | cons op rest ih => exact ih (log_mono_applySessOp h op)

theorem endpoints_mono_applySessOps {s : Session} {e : String}
    (h : e ∈ s.scraped_endpoints) (ops : List SessOp) :
    e ∈ (applySessOps s ops).scraped_endpoints := by
  induction ops generalizing s with
  | nil => exact h
  | cons op rest ih => exact ih (endpoints_mono_applySessOp h op)

theorem mem_recsOf {log : List Line} {en : Entry} (h : Line.record en ∈ log) :
    en ∈ recsOf log := by
  induction log with
  | nil => cases h
  | cons l rest ih =>
      cases l with
      | record e' =>
          rcases List.mem_cons.mp h with h | h
          · rw [Line.record.injEq] at h
            exact h ▸ List.mem_cons_self _ _
          · exact List.mem_cons_of_mem _ (ih h)
      | malformed raw =>
          rcases List.mem_cons.mp h with h | h
          · cases h
          · exact ih h

theorem recsOf_append (l1 l2 : List Line) :
    recsOf (l1 ++ l2) = recsOf l1 ++ recsOf l2 := by
  induction l1 with
  | nil => rfl
  | cons l rest ih => cases l <;> simp [recsOf, ih]

theorem open_session_wf {log : List Line} (h : WfLog log) :
    open_session log = Except.ok
      { log := log
        scraped_endpoints := ((recsOf log).map (fun en => en.id)).toFinset
        scraped_dates := ((recsOf log).map (fun en => en.date)).toFinset } := by
  simp [open_session, load_data_wf h]

/--
C2: after `append_data_to_file(e, d, p)` succeeds in an open store
session, `is_endpoint_scraped(e)` is true immediately, remains true after
any further operations of that session, and is still true in a fresh
session opened on the same directory: the replay of the persisted log at
session start rebuilds an endpoint index containing `e`.
-/
theorem C2_append_durable (s : Session) (hwf : WfLog s.log)
    (e d p : String) (ops : List SessOp) :
    is_endpoint_scraped (append_data_to_file s e d p) e = true ∧
    is_endpoint_scraped (applySessOps (append_data_to_file s e d p) ops) e = true ∧
    ∃ s2, open_session (applySessOps (append_data_to_file s e d p) ops).log
        = Except.ok s2 ∧ is_endpoint_scraped s2 e = true := by
  have hmem1 : e ∈ (append_data_to_file s e d p).scraped_endpoints :=
    Finset.mem_insert_self e s.scraped_endpoints
  have hwf1 : WfLog (append_data_to_file s e d p).log :=
    wfLog_applySessOp hwf (SessOp.appendData e d p)
  have hwf2 : WfLog (applySessOps (append_data_to_file s e d p) ops).log :=
    wfLog_applySessOps hwf1 ops
  have hline : Line.record { id := e, date := d, data := p }
      ∈ (append_data_to_file s e d p).log :=
    List.mem_append_right _ (List.mem_singleton_self _)
  have hline2 := log_mono_applySessOps hline ops
  refine ⟨by simpa [is_endpoint_scraped] using hmem1,
    by simpa [is_endpoint_scraped] using endpoints_mono_applySessOps hmem1 ops, ?_⟩
  refine ⟨_, open_session_wf hwf2, ?_⟩
  have : e ∈ ((recsOf (applySessOps (append_data_to_file s e d p) ops).log).map
      (fun en => en.id)).toFinset := by
    rw [List.mem_toFinset]
    exact List.mem_map.mpr ⟨_, mem_recsOf hline2, rfl⟩
  simpa [is_endpoint_scraped] using this

/--
Witness for C2 at a concrete input: one append on a fresh empty store.
-/
theorem C2_witness :
    is_endpoint_scraped
        (append_data_to_file emptySession "bostad/1337" "2023-01-01" "null")
        "bostad/1337" = true ∧
    is_endpoint_scraped
        (applySessOps
          (append_data_to_file emptySession "bostad/1337" "2023-01-01" "null") [])
        "bostad/1337" = true ∧
    ∃ s2, open_session
          (applySessOps
            (append_data_to_file emptySession "bostad/1337" "2023-01-01" "null")
            []).log
        = Except.ok s2 ∧ is_endpoint_scraped s2 "bostad/1337" = true :=
  C2_append_durable emptySession
    (fun l hl => absurd hl (List.not_mem_nil l)) "bostad/1337" "2023-01-01" "null" []

def appendTriples (s : Session) (l : List (String × String × String)) : Session :=
  l.foldl (fun acc t => append_data_to_file acc t.1 t.2.1 t.2.2) s

theorem appendTriples_log (s : Session) (l : List (String × String × String)) :
    (appendTriples s l).log =
      s.log ++ l.map (fun t => Line.record { id := t.1, date := t.2.1, data := t.2.2 }) := by
  induction l generalizing s with
  | nil => simp [appendTriples]
  | cons t rest ih =>
      simp [appendTriples, List.foldl_cons] at ih ⊢
      rw [ih]
      simp [append_data_to_file]

theorem load_data_record_map (appends : List (String × String × String)) :
    load_data (appends.map (fun t => Line.record { id := t.1, date := t.2.1, data := t.2.2 }))
      = (appends.map (fun t => { id := t.1, date := t.2.1, data := t.2.2 }), false) := by
  induction appends with
  | nil => rfl
  | cons t rest ih => simp [load_data, ih]

/--
C10: starting from an empty store, any finite sequence of
`append_data_to_file` calls in one session is round-tripped exactly by
`load_data`: it yields one entry per append, with the appended id, date
and payload, in append order, and the replay is not aborted.
-/
theorem C10_roundtrip (appends : List (String × String × String)) :
    load_data (appendTriples emptySession appends).log =
      (appends.map (fun t => { id := t.1, date := t.2.1, data := t.2.2 }), false) := by
  rw [appendTriples_log]
  show load_data ([] ++ _) = _
  rw [List.nil_append, load_data_record_map]

/--
The operations through which the running system touches the store.
`guardedAppend` is the system's only write path: in
`process_listings` (src/housing_pricer/scraping/_booli_scraping.py,
lines 63-85) every append is preceded by `scraper.get`, and
`Scraper.get` (src/housing_pricer/scraping/utilities/scraper.py,
lines 100-101) raises `AlreadyScrapedError` — caught by the loop as a
skip — whenever `is_endpoint_scraped` already holds, so
`append_data_to_file` runs only for endpoints absent from the index.
`replay` is the index rebuild of session start; `membershipCheck` is the
read-only `is_endpoint_scraped` query.
-/
inductive StoreOp where
  | replay
  | guardedAppend (endpoint_id date data : String)
  | membershipCheck (endpoint_id : String)

def applyStoreOp (s : Session) : StoreOp → Session
  | StoreOp.replay =>
      match open_session s.log with
      | Except.ok s' => s'
      | Except.error _ => s
  | StoreOp.guardedAppend e d p =>
      if is_endpoint_scraped s e then s else append_data_to_file s e d p
  | StoreOp.membershipCheck _ => s

/-- The endpoint ids of the log's records, in log order. -/
def logIds (log : List Line) : List String :=
  (recsOf log).map (fun en => en.id)

/--
The store invariant of the spec: every line of the log is a well-formed
record, no two records of the log share an id (so every endpoint appears
in the index at most once), and the in-memory index is exactly the set of
ids present in the log.
-/
def StoreInv (s : Session) : Prop :=
  WfLog s.log ∧ (logIds s.log).Nodup ∧
    s.scraped_endpoints = (logIds s.log).toFinset

theorem storeInv_emptySession : StoreInv emptySession := by
  refine ⟨fun l hl => absurd hl (List.not_mem_nil l), ?_, ?_⟩ <;>
    simp [emptySession, logIds, recsOf]

/--
C4: the store invariant — every endpoint appears in the index at most
once and the append-only log never contains two records with the same
id — is preserved by every store operation: the replay at session start,
the (guarded) append, and the membership check.
-/
theorem C4_invariant_preserved (s : Session) (op : StoreOp) (h : StoreInv s) :
    StoreInv (applyStoreOp s op) := by
  obtain ⟨hwf, hnodup, hidx⟩ := h
  cases op with
  | replay =>
      show StoreInv (match open_session s.log with
        | Except.ok s' => s'
        | Except.error _ => s)
      rw [open_session_wf hwf]
      exact ⟨hwf, hnodup, rfl⟩
  | guardedAppend e d p =>
      show StoreInv (if is_endpoint_scraped s e then s
        else append_data_to_file s e d p)
      rcases hscr : is_endpoint_scraped s e with _ | _
      · rw [if_neg (by simp [hscr])]
        have hnotin : e ∉ logIds s.log := by
          have : ¬ e ∈ s.scraped_endpoints := by
            simpa [is_endpoint_scraped] using hscr
          rw [hidx] at this
          simpa [List.mem_toFinset] using this
        refine ⟨wfLog_applySessOp hwf (SessOp.appendData e d p), ?_, ?_⟩
        · rw [show (append_data_to_file s e d p).log
              = s.log ++ [Line.record { id := e, date := d, data := p }] from rfl,
            logIds, recsOf_append]
          simp only [recsOf, List.map_append, List.map_cons, List.map_nil]
          rw [List.nodup_append]
          refine ⟨hnodup, List.nodup_singleton e, ?_⟩
          intro a ha hae
          rw [List.mem_singleton] at hae
          subst hae
          exact hnotin ha
        · rw [show (append_data_to_file s e d p).log
              = s.log ++ [Line.record { id := e, date := d, data := p }] from rfl,
            logIds, recsOf_append]
          simp only [recsOf, List.map_append, List.map_cons, List.map_nil]
          rw [List.toFinset_append, show (append_data_to_file s e d p).scraped_endpoints
            = insert e s.scraped_endpoints from rfl, hidx]
          ext a
          simp [logIds, or_comm]
      · rw [if_pos (by simp [hscr])]
        exact ⟨hwf, hnodup, hidx⟩
  | membershipCheck e => exact ⟨hwf, hnodup, hidx⟩

/--
Witness for C4: the invariant holds of the empty store and is preserved
by a concrete guarded append applied to it.
-/
theorem C4_witness :
    StoreInv (applyStoreOp emptySession
      (StoreOp.guardedAppend "bostad/1337" "2023-01-01" "null")) :=
  C4_invariant_preserved emptySession
    (StoreOp.guardedAppend "bostad/1337" "2023-01-01" "null") storeInv_emptySession

/--
C5 (the code at the failing input): `load_data` on a log consisting of a
malformed line followed by a valid record aborts at the malformed line —
`json.loads` raises `JSONDecodeError`, which the surrounding
`except EOFError` does not catch — yielding no entries at all; in
particular the subsequent valid record is not yielded, contrary to the
claimed skip-with-warning semantics.
-/
theorem C5_malformed_aborts_replay :
    load_data [Line.malformed "corrupt tail",
        Line.record { id := "bostad/1337", date := "2023-01-01", data := "null" }]
      = ([], true) ∧
    ({ id := "bostad/1337", date := "2023-01-01", data := "null" } : Entry)
      ∉ (load_data [Line.malformed "corrupt tail",
          Line.record { id := "bostad/1337", date := "2023-01-01", data := "null" }]).1 ∧
    open_session [Line.malformed "corrupt tail",
        Line.record { id := "bostad/1337", date := "2023-01-01", data := "null" }]
      = Except.error PyErr.json_decode_error := by
  refine ⟨rfl, ?_, rfl⟩
  show _ ∉ ([] : List Entry)
  exact List.not_mem_nil _

/-!
Fetch client (`Scraper` of src/housing_pricer/scraping/utilities/scraper.py
and the earlier variant src/housing_pricer/scraping/scraper.py).

The network is an external collaborator: the outcome of the k-th
`session.get` call of one logical fetch is given by an oracle
`Nat → Outcome`; an outcome is either a transport-level failure
(`requests.RequestException`) or an HTTP response with a status code and
content bytes.  `response.raise_for_status()` raises `HTTPError` exactly
for status codes 400-599.  The rate limiter and the inter-request
throttling only delay execution and do not affect any result, so they are
not modelled.  The pair returned by the embedded fetch operations is
(result, number of network calls issued).
-/

inductive Outcome where
  | transportFailure
  | response (status : Nat) (content : List Nat)

inductive ScrapeErr where
  | fromTransport
  | fromHttpStatus (status : Nat)
deriving DecidableEq

/--
Errors a `get` call can raise: `alreadyScraped` for `AlreadyScrapedError`,
`scrape` for a re-raised `ScrapeError`, `runtime` for the `RuntimeError`
after the utilities loop, and `typeError` for the raw `TypeError` that
CPython's `time.sleep` raises when called as `time.sleep(secs=...)`
(`time.sleep` is a C builtin accepting no keyword arguments).
-/
inductive GetErr where
  | alreadyScraped
  | scrape (e : ScrapeErr)
  | runtime
  | typeError
deriving DecidableEq

/--
Embeds `Scraper._try_get_except`
(src/housing_pricer/scraping/utilities/scraper.py, lines 115-137; the body
of the earlier variant in src/housing_pricer/scraping/scraper.py, lines
77-98, is the same up to logging): issue the request, call
`raise_for_status` (HTTP 400-599 raises `HTTPError`), return `b""` for a
204 response and the content otherwise; `HTTPError` and
`RequestException` are wrapped into `ScrapeError`.
-/
def try_get_except (o : Outcome) : Except ScrapeErr (List Nat) :=
  match o with
  | Outcome.transportFailure => Except.error ScrapeErr.fromTransport
  | Outcome.response status content =>
      if 400 ≤ status ∧ status < 600 then Except.error (ScrapeErr.fromHttpStatus status)
      else if status = 204 then Except.ok []
      else Except.ok content

/--
The attempt loop of `Scraper.get`
(src/housing_pricer/scraping/utilities/scraper.py, lines 103-113):
`for attempt in range(tries)` runs `_try_get_except`; success returns the
content; on `ScrapeError`, the last attempt (`attempt == tries - 1`)
re-raises, otherwise the loop continues.  Falling out of the loop (only
possible when `tries == 0`) raises `RuntimeError`.
-/
def run_attempts (oracle : Nat → Outcome) : Nat → Nat → Except GetErr (List Nat) × Nat
  | _, 0 => (Except.error GetErr.runtime, 0)
  | attempt, remaining + 1 =>
      match try_get_except (oracle attempt) with
      | Except.ok c => (Except.ok c, 1)
      | Except.error e =>
          if remaining = 0 then (Except.error (GetErr.scrape e), 1)
          else
            let r := run_attempts oracle (attempt + 1) remaining
            (r.1, r.2 + 1)

/--
Embeds `Scraper.get` (src/housing_pricer/scraping/utilities/scraper.py,
lines 89-113): raise `AlreadyScrapedError` — before any network call —
when the endpoint is already recorded as scraped, otherwise run the
attempt loop.  `already_scraped` is the value of
`data_manager.is_endpoint_scraped(endpoint)`.
-/
def scraper_get (already_scraped : Bool) (oracle : Nat → Outcome) (tries : Nat) :
    Except GetErr (List Nat) × Nat :=
  if already_scraped then (Except.error GetErr.alreadyScraped, 0)
  else run_attempts oracle 0 tries

/--
The retry loop of the earlier `Scraper.get`
(src/housing_pricer/scraping/scraper.py, lines 122-134):
`for _ in range(retries)` tries `_try_get_except`; success returns the
content; on a caught `ScrapeError` the handler logs and then calls
`time.sleep(secs=seconds_delay)` (line 131), which raises a raw
`TypeError` — `time.sleep` accepts no keyword arguments — and that
`TypeError` is not caught, so it aborts the whole call at the first
failed attempt; no further iteration ever runs.  The
`return b""` fallthrough after the loop is therefore reachable only when
`retries = 0`.  The `mark_endpoint` side effect on the success path is a
`DataManager` update that does not affect the returned value and is not
modelled.
-/
def legacy_run_attempts (oracle : Nat → Outcome) : Nat → Nat → Except GetErr (List Nat) × Nat
  | _, 0 => (Except.ok [], 0)
  | attempt, _ + 1 =>
      match try_get_except (oracle attempt) with
      | Except.ok c => (Except.ok c, 1)
      | Except.error _ => (Except.error GetErr.typeError, 1)

/--
Embeds the earlier `Scraper.get`
(src/housing_pricer/scraping/scraper.py, lines 100-134): the
already-scraped guard, then the retry loop whose exception handler dies
with a raw `TypeError` (see `legacy_run_attempts`).
-/
def legacy_scraper_get (already_scraped : Bool) (oracle : Nat → Outcome) (retries : Nat) :
    Except GetErr (List Nat) × Nat :=
  if already_scraped then (Except.error GetErr.alreadyScraped, 0)
  else legacy_run_attempts oracle 0 retries

theorem run_attempts_all_fail (oracle : Nat → Outcome) :
    ∀ remaining attempt, 1 ≤ remaining →
    (∀ k, k < remaining → ∃ er, try_get_except (oracle (attempt + k)) = Except.error er) →
    (∃ er, (run_attempts oracle attempt remaining).1 = Except.error (GetErr.scrape er)) ∧
      (run_attempts oracle attempt remaining).2 = remaining := by
  intro remaining
  induction remaining with
  | zero => intro attempt h1; omega
  | succ r ih =>
      intro attempt _ hfail
      obtain ⟨er, herr⟩ := hfail 0 (by omega)
      rw [Nat.add_zero] at herr
      rcases Nat.eq_zero_or_pos r with hr0 | hr0
      · subst hr0
        refine ⟨⟨er, ?_⟩, ?_⟩ <;> simp [run_attempts, herr]
      · obtain ⟨r', rfl⟩ : ∃ r', r = r' + 1 := ⟨r - 1, by omega⟩
        have hfail' : ∀ k, k < r' + 1 →
            ∃ er, try_get_except (oracle (attempt + 1 + k)) = Except.error er := by
          intro k hk
          have := hfail (k + 1) (by omega)
          rwa [show attempt + (k + 1) = attempt + 1 + k by omega] at this
        obtain ⟨⟨er2, hres⟩, hcount⟩ := ih (attempt + 1) (by omega) hfail'
        have hstep : run_attempts oracle attempt (r' + 1 + 1)
            = ((run_attempts oracle (attempt + 1) (r' + 1)).1,
               (run_attempts oracle (attempt + 1) (r' + 1)).2 + 1) := by
          show (match try_get_except (oracle attempt) with
            | Except.ok c => (Except.ok c, 1)
            | Except.error e =>
                if r' + 1 = 0 then (Except.error (GetErr.scrape e), 1)
                else
                  let r := run_attempts oracle (attempt + 1) (r' + 1)
                  (r.1, r.2 + 1)) = _
          rw [herr]
          simp
        refine ⟨⟨er2, ?_⟩, ?_⟩
        · rw [hstep]
          exact hres
        · rw [hstep]
          simp [hcount]

/--
C6 (amended): for `Scraper.get` of
src/housing_pricer/scraping/utilities/scraper.py the claim holds: once
every attempt fails with a transport or HTTP error, exhausting the retry
budget surfaces the typed `ScrapeError` (never a raw transport error and
never a silently-empty result) and exactly `tries` network calls are
made, none after the budget is exhausted.  The earlier `Scraper.get` of
src/housing_pricer/scraping/scraper.py instead aborts with the raw
`TypeError` raised by `time.sleep(secs=...)` in its exception handler,
after the first failed attempt — a single network call, before the
budget is even exhausted.
-/
theorem C6_typed_failure_after_budget (oracle : Nat → Outcome) (tries : Nat)
    (h1 : 1 ≤ tries)
    (hfail : ∀ k, k < tries → ∃ er, try_get_except (oracle k) = Except.error er) :
    (∃ er, (scraper_get false oracle tries).1 = Except.error (GetErr.scrape er)) ∧
      (scraper_get false oracle tries).2 = tries ∧
      legacy_scraper_get false oracle tries = (Except.error GetErr.typeError, 1) := by
  obtain ⟨⟨er, hres⟩, hcount⟩ :=
    run_attempts_all_fail oracle tries 0 h1 (by simpa using hfail)
  refine ⟨⟨er, by simpa [scraper_get] using hres⟩,
    by simpa [scraper_get] using hcount, ?_⟩
  obtain ⟨r, rfl⟩ : ∃ r, tries = r + 1 := ⟨tries - 1, by omega⟩
  obtain ⟨er0, herr0⟩ := hfail 0 (by omega)
  simp [legacy_scraper_get, legacy_run_attempts, herr0]

/--
Witness for C6 (amended): with every attempt failing at the transport
level and the default budget of 2 attempts, the utilities fetch
surfaces the typed failure after exactly 2 network calls while the
legacy fetch dies with the raw `TypeError` after 1.
-/
theorem C6_witness :
    (∃ er, (scraper_get false (fun _ => Outcome.transportFailure) 2).1
        = Except.error (GetErr.scrape er)) ∧
      (scraper_get false (fun _ => Outcome.transportFailure) 2).2 = 2 ∧
      legacy_scraper_get false (fun _ => Outcome.transportFailure) 2
        = (Except.error GetErr.typeError, 1) :=
  C6_typed_failure_after_budget (fun _ => Outcome.transportFailure) 2 (by omega)
    (fun _ _ => ⟨ScrapeErr.fromTransport, rfl⟩)

/--
C6 counterexample: the earlier `Scraper.get`
(src/housing_pricer/scraping/scraper.py), with every attempt failing at
the transport level and the default budget of 2 retries, aborts with the
raw `TypeError` of `time.sleep(secs=...)` after a single network call:
the caller receives an untyped error outside the `ScrapeError` taxonomy,
refuting the typed-failure claim for that cited fetch implementation.
-/
theorem C6_counterexample :
    legacy_scraper_get false (fun _ => Outcome.transportFailure) 2
      = (Except.error GetErr.typeError, 1) ∧
      ∀ er : ScrapeErr,
        (legacy_scraper_get false (fun _ => Outcome.transportFailure) 2).1
          ≠ Except.error (GetErr.scrape er) := by
  constructor
  · rfl
  · intro er h
    rw [show (legacy_scraper_get false (fun _ => Outcome.transportFailure) 2).1
        = Except.error GetErr.typeError from rfl] at h
    exact GetErr.noConfusion (Except.error.inj h)

/--
C8: a fetch whose HTTP response has status code 204 succeeds with empty
bytes and raises no error: `raise_for_status` does not raise for 204, and
both `_try_get_except` implementations return `b""` for it; through
either `Scraper.get` the fetch succeeds on the first attempt.
-/
theorem C8_http204_empty_success (content : List Nat) :
    try_get_except (Outcome.response 204 content) = Except.ok [] ∧
    scraper_get false (fun _ => Outcome.response 204 content) 2 = (Except.ok [], 1) ∧
    legacy_scraper_get false (fun _ => Outcome.response 204 content) 2 = (Except.ok [], 1) := by
  refine ⟨rfl, ?_, ?_⟩ <;> rfl

/-!
Orchestration loop (`process_listings` inside `scrape_listings`,
src/housing_pricer/scraping/_booli_scraping.py, lines 63-85).  For each
listing it builds the endpoint string, calls `scraper.get(endpoint)`
(default `tries=2`), extracts the payload (external collaborator,
modelled as a function that may signal `DataProcessingError`) and appends
to the store; `AlreadyScrapedError`, `ScrapeError` and
`DataProcessingError` are caught and logged, so the loop just moves on to
the next listing.  The per-endpoint network outcomes are given by an
oracle; the state tracks the store session, the total number of network
calls issued, and `scraped_count`.
-/

structure ListingMeta where
  listing_type : String
  listing_id : String

def endpointOf (l : ListingMeta) : String :=
  l.listing_type ++ "/" ++ l.listing_id

structure OrchState where
  sess : Session
  network_calls : Nat
  scraped_count : Nat

def process_listing_step (oracle : String → Nat → Outcome)
    (extract : List Nat → Except Unit String) (date : String)
    (st : OrchState) (l : ListingMeta) : OrchState :=
  match scraper_get (is_endpoint_scraped st.sess (endpointOf l))
      (oracle (endpointOf l)) 2 with
  | (Except.error _, n) => { st with network_calls := st.network_calls + n }
  | (Except.ok content, n) =>
      match extract content with
      | Except.error _ => { st with network_calls := st.network_calls + n }
      | Except.ok data =>
          { sess := append_data_to_file st.sess (endpointOf l) date data
            network_calls := st.network_calls + n
            scraped_count := st.scraped_count + 1 }

def process_listings (oracle : String → Nat → Outcome)
    (extract : List Nat → Except Unit String) (date : String)
    (st : OrchState) (listings : List ListingMeta) : OrchState :=
  listings.foldl (process_listing_step oracle extract date) st

/--
C7: for an endpoint already recorded as scraped, `Scraper.get` raises
`AlreadyScrapedError` before issuing any network request (zero network
calls, whatever the oracle and budget), and the orchestration loop
treats this as a non-fatal skip: processing a listing whose endpoint is
already scraped leaves the state unchanged and continues with the
remaining listings.
-/
theorem C7_already_scraped_skip (s : Session) (e : String)
    (h : is_endpoint_scraped s e = true) (oracle : Nat → Outcome) (tries : Nat) :
    scraper_get (is_endpoint_scraped s e) oracle tries
      = (Except.error GetErr.alreadyScraped, 0) ∧
    ∀ (orc : String → Nat → Outcome) (extract : List Nat → Except Unit String)
      (date : String) (calls count : Nat) (l : ListingMeta)
      (rest : List ListingMeta), endpointOf l = e →
      process_listings orc extract date ⟨s, calls, count⟩ (l :: rest)
        = process_listings orc extract date ⟨s, calls, count⟩ rest := by
  constructor
  · rw [h]
    rfl
  · intro orc extract date calls count l rest hend
    have hstep : process_listing_step orc extract date ⟨s, calls, count⟩ l
        = ⟨s, calls, count⟩ := by
      simp [process_listing_step, hend, h, scraper_get]
    show process_listings orc extract date
        (process_listing_step orc extract date ⟨s, calls, count⟩ l) rest = _
    rw [hstep]

/-!
Signal-deferral machine for `DataManager.append_data_to_file` under
`DelayedKeyboardInterrupt`
(src/housing_pricer/scraping/sdk/data_manager.py, lines 136-141, and
src/housing_pricer/scraping/utilities/delayed_keyboard_interrupt.py,
lines 6-27).

Each append executes, in order: `__enter__` of `DelayedKeyboardInterrupt`
(install the recording handler), the single `write` call of the
serialized line — split into one machine step per written character,
since the claim is about records left half-written when the write is cut
short — then `_mark_endpoint_scraped`, then `__exit__` (restore the
previous handler and, if a signal was recorded, re-deliver it; the
default SIGINT handler then raises `KeyboardInterrupt`, terminating the
run).  A SIGINT arriving while the recording handler is installed only
sets `signal_received`; one arriving while it is not installed kills the
process at once.  The schedule is a list of booleans consumed one per
machine step: `true` means a SIGINT arrives just before that step.
`json.dumps` of the entry dict is rendered by `jsonDumpsStr` (string
escaping elided; only the characters' count and identity as one
uninterrupted line matter here).
-/

def jsonDumpsStr (e : Entry) : String :=
  "\x7b\"id\": \"" ++ e.id ++ "\", \"date\": \"" ++ e.date
    ++ "\", \"data\": " ++ e.data ++ "\x7d"

def lineChars (e : Entry) : List Char :=
  (jsonDumpsStr e).toList ++ ['\n']

inductive MicroStep where
  | installHandler
  | writeChunk (c : Char)
  | markEndpoint (endpoint_id : String)
  | exitHandler

structure MState where
  file : List Char
  marked : List String
  handlerOn : Bool
  pending : Bool
  killed : Bool

def initMState : MState :=
  { file := [], marked := [], handlerOn := false, pending := false, killed := false }

/-- A SIGINT arrives: recorded while the deferring handler is installed,
fatal otherwise. -/
def recvSig (s : MState) : MState :=
  if s.handlerOn then { s with pending := true } else { s with killed := true }

def execStep (s : MState) : MicroStep → MState
  | MicroStep.installHandler => { s with handlerOn := true }
  | MicroStep.writeChunk c => { s with file := s.file ++ [c] }
  | MicroStep.markEndpoint e => { s with marked := s.marked ++ [e] }
  | MicroStep.exitHandler =>
      if s.pending then { s with handlerOn := false, pending := false, killed := true }
      else { s with handlerOn := false }

/-- Run the machine: one schedule entry is consumed per step; a killed
process executes nothing further. -/
def run : MState → List Bool → List MicroStep → MState
  | s, _, [] => s
  | s, sched, st :: rest =>
      if s.killed then s
      else run (execStep (if sched.headD false then recvSig s else s) st) sched.tail rest

/-- The machine steps of one `append_data_to_file` call. -/
def stepsOfAppend (e : Entry) : List MicroStep :=
  MicroStep.installHandler ::
    ((lineChars e).map MicroStep.writeChunk
      ++ [MicroStep.markEndpoint e.id, MicroStep.exitHandler])

/-- The machine steps of a sequence of appends. -/
def appendProgram (es : List Entry) : List MicroStep :=
  (es.map stepsOfAppend).flatten

/-- The file contents produced by completing the given appends. -/
def charsOfLines (es : List Entry) : List Char :=
  (es.map lineChars).flatten

/-- A schedule with no signal arrival during the given appends. -/
def noSigSched (es : List Entry) : List Bool :=
  (es.map (fun e => List.replicate ((lineChars e).length + 3) false)).flatten

theorem run_killed {s : MState} (h : s.killed = true) :
    ∀ (sched : List Bool) (steps : List MicroStep), run s sched steps = s := by
  intro sched steps
  cases steps with
  | nil => rfl
  | cons st rest => simp [run, h]

theorem any_replicate_false (n : Nat) :
    (List.replicate n false).any (fun b => b) = false := by
  induction n with
  | zero => rfl
  | succ m ih => simp [List.replicate_succ, ih]

theorem run_writeChunks (chunks : List Char) :
    ∀ (w : List Bool) (s : MState) (schedRest : List Bool) (stepsRest : List MicroStep),
    w.length = chunks.length → s.handlerOn = true → s.killed = false →
    run s (w ++ schedRest) (chunks.map MicroStep.writeChunk ++ stepsRest)
      = run { s with
          file := s.file ++ chunks,
          pending := s.pending || w.any (fun b => b) } schedRest stepsRest := by
  induction chunks with
  | nil =>
      intro w s schedRest stepsRest hw _ _
      rw [List.length_nil, List.length_eq_zero] at hw
      subst hw
      simp only [List.map_nil, List.nil_append, List.any_nil, Bool.or_false,
        List.append_nil]
  | cons c ct ih =>
      intro w s schedRest stepsRest hw hOn hKilled
      cases w with
      | nil => simp at hw
      | cons b wt =>
          have hwt : wt.length = ct.length := by
            simpa using hw
          rw [List.cons_append, List.map_cons, List.cons_append]
          rw [show run s (b :: (wt ++ schedRest))
                (MicroStep.writeChunk c :: (ct.map MicroStep.writeChunk ++ stepsRest))
              = run (execStep (if b then recvSig s else s) (MicroStep.writeChunk c))
                  (wt ++ schedRest) (ct.map MicroStep.writeChunk ++ stepsRest) by
            simp [run, hKilled]]
          cases b with
          | false =>
              rw [ih wt _ schedRest stepsRest hwt (by simp [execStep, hOn])
                (by simp [execStep, hKilled])]
              simp [execStep, List.append_assoc]
          | true =>
              rw [ih wt _ schedRest stepsRest hwt
                (by simp [execStep, recvSig, hOn]) (by simp [execStep, recvSig, hOn, hKilled])]
              simp [execStep, recvSig, hOn, List.append_assoc]

theorem run_cons {s : MState} (hk : s.killed = false) (b : Bool) (sched : List Bool)
    (st : MicroStep) (steps : List MicroStep) :
    run s (b :: sched) (st :: steps)
      = run (execStep (if b then recvSig s else s) st) sched steps := by
  simp [run, hk]

theorem run_append_clean (e : Entry) (s : MState) (schedRest : List Bool)
    (stepsRest : List MicroStep) (hp : s.pending = false) (hk : s.killed = false) :
    run s (List.replicate ((lineChars e).length + 3) false ++ schedRest)
        (stepsOfAppend e ++ stepsRest)
      = run { s with
          file := s.file ++ lineChars e,
          marked := s.marked ++ [e.id],
          handlerOn := false } schedRest stepsRest := by
  have hsched : List.replicate ((lineChars e).length + 3) false ++ schedRest
      = false :: (List.replicate (lineChars e).length false
          ++ (false :: false :: schedRest)) := by
    rw [show (lineChars e).length + 3 = 1 + ((lineChars e).length + 2) by omega,
      List.replicate_add, List.replicate_add]
    simp
  have hsteps : stepsOfAppend e ++ stepsRest
      = MicroStep.installHandler :: ((lineChars e).map MicroStep.writeChunk
          ++ (MicroStep.markEndpoint e.id :: MicroStep.exitHandler :: stepsRest)) := by
    simp [stepsOfAppend]
  rw [hsched, hsteps, run_cons hk]
  rw [show (if false then recvSig s else s) = s from rfl]
  rw [run_writeChunks (lineChars e) (List.replicate (lineChars e).length false)
    (execStep s MicroStep.installHandler) (false :: false :: schedRest)
    (MicroStep.markEndpoint e.id :: MicroStep.exitHandler :: stepsRest)
    (by simp) (by simp [execStep]) (by simp [execStep, hk])]
  rw [run_cons (by simp [execStep, hk])]
  rw [show ∀ t : MState, (if false then recvSig t else t) = t from fun t => rfl]
  rw [run_cons (by simp [execStep, hk])]
  rw [show ∀ t : MState, (if false then recvSig t else t) = t from fun t => rfl]
  congr 1
  simp [execStep, recvSig, any_replicate_false, hp]

theorem run_program_clean :
    ∀ (l : List Entry) (s : MState) (schedRest : List Bool) (stepsRest : List MicroStep),
    s.pending = false → s.killed = false → s.handlerOn = false →
    run s (noSigSched l ++ schedRest) (appendProgram l ++ stepsRest)
      = run { s with
          file := s.file ++ charsOfLines l,
          marked := s.marked ++ l.map (fun e => e.id) } schedRest stepsRest := by
  intro l
  induction l with
  | nil =>
      intro s schedRest stepsRest hp hk hOn
      simp [noSigSched, appendProgram, charsOfLines]
  | cons e rest ih =>
      intro s schedRest stepsRest hp hk hOn
      have h1 : noSigSched (e :: rest) ++ schedRest
          = List.replicate ((lineChars e).length + 3) false
            ++ (noSigSched rest ++ schedRest) := by
        simp [noSigSched]
      have h2 : appendProgram (e :: rest) ++ stepsRest
          = stepsOfAppend e ++ (appendProgram rest ++ stepsRest) := by
        simp [appendProgram]
      rw [h1, h2, run_append_clean e s _ _ hp hk]
      rw [ih _ _ _ (by simp [hp]) (by simp [hk]) (by simp)]
      congr 1
      simp [charsOfLines, hOn]

theorem run_append_interrupted (e : Entry) (s : MState) (w : List Bool)
    (schedRest : List Bool) (stepsRest : List MicroStep)
    (hw : w.length = (lineChars e).length) (hany : w.any (fun b => b) = true)
    (hp : s.pending = false) (hk : s.killed = false) :
    run s (false :: (w ++ (false :: false :: schedRest))) (stepsOfAppend e ++ stepsRest)
      = { s with
          file := s.file ++ lineChars e,
          marked := s.marked ++ [e.id],
          handlerOn := false, pending := false, killed := true } := by
  have hsteps : stepsOfAppend e ++ stepsRest
      = MicroStep.installHandler :: ((lineChars e).map MicroStep.writeChunk
          ++ (MicroStep.markEndpoint e.id :: MicroStep.exitHandler :: stepsRest)) := by
    simp [stepsOfAppend]
  rw [hsteps, run_cons hk, show (if false then recvSig s else s) = s from rfl]
  rw [run_writeChunks (lineChars e) w (execStep s MicroStep.installHandler)
    (false :: false :: schedRest)
    (MicroStep.markEndpoint e.id :: MicroStep.exitHandler :: stepsRest)
    hw (by simp [execStep]) (by simp [execStep, hk])]
  rw [run_cons (by simp [execStep, hk])]
  rw [show ∀ t : MState, (if false then recvSig t else t) = t from fun t => rfl]
  rw [run_cons (by simp [execStep, hk])]
  rw [show ∀ t : MState, (if false then recvSig t else t) = t from fun t => rfl]
  rw [run_killed (by simp [execStep, hp, hany]) schedRest stepsRest]
  simp [execStep, hp, hany]

/--
C3: for every sequence of appends and every schedule on which SIGINT
arrives (one or more times) only during the single write call of the
j-th append, the interrupt is deferred until that write returns and then
re-delivered (the final state is killed), and the log after recovery is
exactly the concatenation of the complete serialized records of appends
0..j: no partially-written record exists, every record appended before
the interrupted one is intact, and the interrupted record itself is
complete.
-/
theorem C3_sigint_deferred (es : List Entry) (j : Nat) (hj : j < es.length)
    (w : List Bool) (hw : w.length = (lineChars (es.get ⟨j, hj⟩)).length)
    (hany : w.any (fun b => b) = true) (schedRest : List Bool) :
    run initMState
        (noSigSched (es.take j) ++ (false :: (w ++ (false :: false :: schedRest))))
        (appendProgram es)
      = { file := charsOfLines (es.take j) ++ lineChars (es.get ⟨j, hj⟩),
          marked := (es.take j).map (fun e => e.id) ++ [(es.get ⟨j, hj⟩).id],
          handlerOn := false, pending := false, killed := true } := by
  have hdecomp : es = es.take j ++ (es.get ⟨j, hj⟩ :: es.drop (j + 1)) := by
    rw [List.get_eq_getElem, ← List.drop_eq_getElem_cons hj, List.take_append_drop]
  have hprog : appendProgram es
      = appendProgram (es.take j)
        ++ (stepsOfAppend (es.get ⟨j, hj⟩) ++ appendProgram (es.drop (j + 1))) := by
    conv_lhs => rw [hdecomp]
    simp only [appendProgram]
    rw [List.map_append, List.map_cons, List.flatten_append, List.flatten_cons]
  rw [hprog]
  rw [run_program_clean (es.take j) initMState _ _ rfl rfl rfl]
  rw [run_append_interrupted (es.get ⟨j, hj⟩) _ w schedRest
    (appendProgram (es.drop (j + 1))) hw hany (by simp [initMState]) (by simp [initMState])]
  simp [initMState]

/-- Concrete entries for the C3 witness. -/
def witE0 : Entry := { id := "bostad/1", date := "2023-12-01", data := "null" }

def witE1 : Entry := { id := "annons/2", date := "2023-12-01", data := "null" }

/-- A schedule segment delivering SIGINT at every chunk of the first
append's write call. -/
def witSched : List Bool := List.replicate (lineChars witE0).length true

/--
Witness for C3: two appends, SIGINT delivered during the write of the
first; the machine ends killed with exactly the first record complete in
the file.
-/
theorem C3_witness :
    run initMState
        (noSigSched (([witE0, witE1]).take 0)
          ++ (false :: (witSched ++ (false :: false :: []))))
        (appendProgram [witE0, witE1])
      = { file := charsOfLines (([witE0, witE1]).take 0) ++ lineChars witE0,
          marked := (([witE0, witE1]).take 0).map (fun e => e.id) ++ [witE0.id],
          handlerOn := false, pending := false, killed := true } :=
  C3_sigint_deferred [witE0, witE1] 0 (by decide) witSched (by decide) (by decide) []

/--
Witness for C7: against a store holding "annons/42", the fetch raises
`AlreadyScrapedError` with zero network calls, and the orchestration
loop's processing of that listing is a pure skip.
-/
theorem C7_witness :
    scraper_get
        (is_endpoint_scraped
          (append_data_to_file emptySession "annons/42" "2023-12-01" "null") "annons/42")
        (fun _ => Outcome.transportFailure) 2
      = (Except.error GetErr.alreadyScraped, 0) ∧
    process_listings (fun _ _ => Outcome.transportFailure) (fun _ => Except.error ())
        "2023-12-05"
        ⟨append_data_to_file emptySession "annons/42" "2023-12-01" "null", 0, 0⟩
        [{ listing_type := "annons", listing_id := "42" }]
      = process_listings (fun _ _ => Outcome.transportFailure) (fun _ => Except.error ())
        "2023-12-05"
        ⟨append_data_to_file emptySession "annons/42" "2023-12-01" "null", 0, 0⟩ [] :=
  ⟨(C7_already_scraped_skip
      (append_data_to_file emptySession "annons/42" "2023-12-01" "null") "annons/42"
      (by decide) (fun _ => Outcome.transportFailure) 2).1,
   (C7_already_scraped_skip
      (append_data_to_file emptySession "annons/42" "2023-12-01" "null") "annons/42"
      (by decide) (fun _ => Outcome.transportFailure) 2).2
      (fun _ _ => Outcome.transportFailure) (fun _ => Except.error ()) "2023-12-05" 0 0
      { listing_type := "annons", listing_id := "42" } [] (by decide)⟩
